import Mathlib

/-!
Shallow embedding of the authentication core of the repository:
`AuthService` (register / login / refreshToken / logout / acceptInvitation /
generateTokens), `RefreshTokenRepository`, the `RefreshTokenEntity` and
`InvitationEntity` validity checks, and the Prisma-backed stores they touch.

Stores are modelled as lists of rows; the database value threads through every
operation explicitly.  Time is in milliseconds.  JWTs are modelled structurally:
a token string is either the serialization of a signed JWT or garbage, which is
captured by the inductive `TokenStr`.  SHA-256 (`RefreshTokenRepository.hashToken`)
and bcrypt are kept abstract as fields of the ambient `Env`.
-/

namespace AIDD

/-- Membership role, from the Prisma `TenantRole` enum. -/
inductive TenantRole
  | OWNER
  | ADMIN
  | MEMBER
deriving DecidableEq, Repr

/-- A row of the `users` table. -/
structure UserRow where
  id : String
  email : String
  password : String
  firstName : Option String
  lastName : Option String
deriving DecidableEq, Repr

/-- A row of the `tenants` table. -/
structure TenantRow where
  id : String
  name : String
  slug : String
deriving DecidableEq, Repr

/-- A row of the `tenant_users` join table (a Membership). -/
structure TenantUserRow where
  userId : String
  tenantId : String
  role : TenantRole
  createdAt : Nat
deriving DecidableEq, Repr

/-- A row of the `refresh_tokens` table.  The `token` column holds the
SHA-256 hash of the raw token, per `RefreshTokenRepository.create`. -/
structure RefreshTokenRow where
  userId : String
  token : String
  expiresAt : Nat
  revoked : Bool
deriving DecidableEq, Repr

/-- A row of the `invitations` table. -/
structure InvitationRow where
  id : String
  email : String
  token : String
  role : TenantRole
  expiresAt : Nat
  accepted : Bool
  tenantId : String
deriving DecidableEq, Repr

/-- The database state: the five stores the authentication core touches. -/
structure Db where
  users : List UserRow
  tenants : List TenantRow
  tenantUsers : List TenantUserRow
  refreshTokens : List RefreshTokenRow
  invitations : List InvitationRow
deriving DecidableEq, Repr

/-- The payload signed into both tokens of a pair: `{ sub, tenantId }`
(`JwtPayload` in the source). -/
structure JwtPayload where
  sub : String
  tenantId : String
deriving DecidableEq, Repr

/-- A signed JWT: payload claims plus the signing secret and the issued-at /
expiry timestamps that `jsonwebtoken` embeds.  A token verifies under a secret
iff the secret matches and it is not past `exp`. -/
structure Jwt where
  sub : String
  tenantId : String
  secret : String
  iat : Nat
  exp : Nat
deriving DecidableEq, Repr

/-- A token-valued string: either the serialization of a signed JWT or an
arbitrary string that is not a valid JWT (garbage input). -/
inductive TokenStr
  | jwt (j : Jwt)
  | garbage (s : String)
deriving DecidableEq, Repr

/-- The string form a token travels as (JWTs serialize to dotted strings). -/
def TokenStr.asString : TokenStr → String
  | .jwt j => j.sub ++ "." ++ j.tenantId ++ "." ++ j.secret ++ "."
      ++ toString j.iat ++ "." ++ toString j.exp
  | .garbage s => s

/-- The access/refresh pair returned by `AuthService.generateTokens`. -/
structure TokenPair where
  accessToken : TokenStr
  refreshToken : TokenStr
deriving DecidableEq, Repr

/-- The typed errors thrown by the authentication flows
(`auth.exceptions` and `invitation.exceptions`), plus `infra` standing for an
unexpected store/driver failure propagating as a thrown exception. -/
inductive AppError
  | invalidCredentials
  | userHasNoTenants
  | invalidRefreshToken
  | userAlreadyExists (email : String)
  | passwordRequired
  | tenantNotFound (tenantId : String)
  | invitationNotFound (token : String)
  | invitationAlreadyAccepted
  | invitationExpired
  | infra
deriving DecidableEq, Repr

/-- Ambient configuration and runtime services: the `ConfigService` values read
by `AuthService`, the current clock, id generation, and the abstract
cryptographic primitives (SHA-256 over token strings, bcrypt). -/
structure Env where
  /-- SHA-256 hex digest of a token string (`crypto.createHash('sha256')`). -/
  hash : TokenStr → String
  /-- `jwt.secret` — access-token signing secret. -/
  jwtSecret : String
  /-- `jwt.refreshSecret` — refresh-token signing secret. -/
  jwtRefreshSecret : String
  /-- `jwt.expiresIn` — access-token lifetime in ms. -/
  jwtExpiresInMs : Nat
  /-- `jwt.refreshExpiresIn` — configured refresh lifetime in ms;
  `none` models an unset (falsy) config value, defaulted to 30 days by
  `generateTokens` via `|| '30d'`. -/
  jwtRefreshExpiresInMs : Option Nat
  /-- Current time in ms (`new Date()` / `Date.now()`). -/
  now : Nat
  /-- Id the database assigns to a user row created during this call. -/
  newUserId : String
  /-- Id the database assigns to a tenant row created during this call. -/
  newTenantId : String
  /-- The `Math.random()`-derived suffix used by `generateSlug`. -/
  randSuffix : String
  /-- `bcrypt.hash(password, 12)`. -/
  bcryptHash : String → String
  /-- `bcrypt.compare(password, storedHash)`. -/
  bcryptCompare : String → String → Bool

/-- One day in milliseconds. -/
def dayMs : Nat := 86400000

/-- `jwtService.signAsync(payload, { secret, expiresIn })` at time `now`. -/
def jwtSign (payload : JwtPayload) (secret : String) (now expiresInMs : Nat) : Jwt :=
  { sub := payload.sub
    tenantId := payload.tenantId
    secret := secret
    iat := now
    exp := now + expiresInMs }

/-- `jwtService.verify(token, { secret })` at time `now`: `some payload` on a
well-formed token with matching secret that is not expired, `none` models the
verification throw (bad signature, malformed token, expired JWT). -/
def jwtVerify (token : TokenStr) (secret : String) (now : Nat) : Option JwtPayload :=
  match token with
  | .jwt j => if j.secret = secret ∧ now ≤ j.exp then some ⟨j.sub, j.tenantId⟩ else none
  | .garbage _ => none

namespace RefreshTokenRepository

/-- `RefreshTokenRepository.create`: persist `(userId, sha256(token), expiresAt)`
with `revoked` defaulting to false.  Only the hash of the raw token is stored. -/
def create (env : Env) (db : Db) (userId : String) (token : TokenStr)
    (expiresAt : Nat) : Db :=
  { db with refreshTokens :=
      db.refreshTokens ++ [⟨userId, env.hash token, expiresAt, false⟩] }

/-- `RefreshTokenRepository.findByToken`: look up by the hash of the presented
token (`findUnique({ where: { token: hashedToken } })`). -/
def findByToken (env : Env) (db : Db) (token : TokenStr) : Option RefreshTokenRow :=
  db.refreshTokens.find? (fun r => r.token == env.hash token)

/-- `RefreshTokenRepository.revoke`: set `revoked := true` on the record whose
stored hash matches the hash of the presented token.  Prisma `update` throws
when no such record exists, modelled by `Except.error`. -/
def revoke (env : Env) (db : Db) (token : TokenStr) : Except Unit Db :=
  if db.refreshTokens.any (fun r => r.token == env.hash token) then
    .ok { db with refreshTokens :=
      db.refreshTokens.map (fun r =>
        if r.token == env.hash token then { r with revoked := true } else r) }
  else
    .error ()

end RefreshTokenRepository

/-- `RefreshTokenEntity.isExpired`: `new Date() > this.expiresAt`. -/
def RefreshTokenRow.isExpired (now : Nat) (r : RefreshTokenRow) : Bool :=
  decide (now > r.expiresAt)

/-- `RefreshTokenEntity.isValid`: not expired and not revoked. -/
def RefreshTokenRow.isValid (now : Nat) (r : RefreshTokenRow) : Bool :=
  !r.isExpired now && !r.revoked

/-- `InvitationEntity.isExpired`: `new Date() > this.expiresAt`. -/
def InvitationRow.isExpired (now : Nat) (i : InvitationRow) : Bool :=
  decide (now > i.expiresAt)

namespace UserRepository

/-- `UserRepository.findByEmailWithPassword`: `findUnique({ where: { email } })`. -/
def findByEmailWithPassword (db : Db) (email : String) : Option UserRow :=
  db.users.find? (fun u => u.email == email)

/-- `UserRepository.findByEmail` resolves the same unique row (the entity
mapping drops the password, which is irrelevant to existence checks). -/
def findByEmail (db : Db) (email : String) : Option UserRow :=
  db.users.find? (fun u => u.email == email)

/-- `UserRepository.findById`: `findUnique({ where: { id } })`. -/
def findById (db : Db) (id : String) : Option UserRow :=
  db.users.find? (fun u => u.id == id)

end UserRepository

/-- Request body of `POST /auth/register` (`RegisterDto`). -/
structure RegisterDto where
  email : String
  password : String
  firstName : Option String
  lastName : Option String
  tenantId : Option String
deriving DecidableEq, Repr

/-- Request body of `POST /auth/login` (`LoginDto`). -/
structure LoginDto where
  email : String
  password : String
deriving DecidableEq, Repr

/-- Request body of `POST /auth/accept-invitation` (`AcceptInvitationDto`):
the invitation token (a raw UUID string, not a JWT) plus an optional password. -/
structure AcceptInvitationDto where
  token : String
  password : Option String
deriving DecidableEq, Repr

/-- A user profile with the password hash excluded
(`UserMapper.excludePassword`). -/
structure UserPublic where
  id : String
  email : String
  firstName : Option String
  lastName : Option String
deriving DecidableEq, Repr

/-- `UserMapper.excludePassword`. -/
def UserMapper.excludePassword (u : UserRow) : UserPublic :=
  ⟨u.id, u.email, u.firstName, u.lastName⟩

/-- Result of a successful register / acceptInvitation call:
profile plus token pair. -/
structure AuthResult where
  user : UserPublic
  tokens : TokenPair
deriving DecidableEq, Repr

namespace AuthService

/-- `AuthService.generateSlug`: email local part, lowercased, non-`[a-z0-9]`
replaced by `-`, plus a random suffix. -/
def generateSlug (email : String) (randSuffix : String) : String :=
  let base := ((email.splitOn "@").headD "").toLower.map
    (fun c => if (('a' ≤ c ∧ c ≤ 'z') ∨ ('0' ≤ c ∧ c ≤ '9')) then c else '-')
  base ++ "-" ++ randSuffix

/-- `AuthService.generateTokens`: sign access and refresh JWTs over
`{ sub: userId, tenantId }` with their two secrets — the refresh lifetime is
the configured `jwt.refreshExpiresIn` defaulted to 30 days — then persist the
refresh token (hashed) with a hard-coded expiry of `now + 30 days`. -/
def generateTokens (env : Env) (db : Db) (userId tenantId : String) :
    Db × TokenPair :=
  let payload : JwtPayload := ⟨userId, tenantId⟩
  let refreshExpiresIn := env.jwtRefreshExpiresInMs.getD (30 * dayMs)
  let accessToken := TokenStr.jwt (jwtSign payload env.jwtSecret env.now env.jwtExpiresInMs)
  let refreshToken := TokenStr.jwt (jwtSign payload env.jwtRefreshSecret env.now refreshExpiresIn)
  let expiresAt := env.now + 30 * dayMs
  let db1 := RefreshTokenRepository.create env db userId refreshToken expiresAt
  (db1, ⟨accessToken, refreshToken⟩)

/-- Body of the `prisma.$transaction` callback inside `AuthService.register`:
create the User, then either attach it to the supplied tenant as MEMBER
(failing with `TenantNotFound` if the tenant does not exist) or create a fresh
workspace tenant and an OWNER membership.  Returns the written database, the
new user and the active tenant id; an error means the transaction rolls back. -/
def registerTx (env : Env) (db : Db) (dto : RegisterDto) :
    Except AppError (Db × UserRow × String) :=
  let newUser : UserRow :=
    ⟨env.newUserId, dto.email, env.bcryptHash dto.password, dto.firstName, dto.lastName⟩
  let db1 := { db with users := db.users ++ [newUser] }
  match dto.tenantId with
  | some tid =>
    match db1.tenants.find? (fun t => t.id == tid) with
    | none => .error (.tenantNotFound tid)
    | some _ =>
      let db2 := { db1 with tenantUsers :=
        db1.tenantUsers ++ [⟨newUser.id, tid, TenantRole.MEMBER, env.now⟩] }
      .ok (db2, newUser, tid)
  | none =>
    let slug := generateSlug dto.email env.randSuffix
    let name := dto.firstName.getD "User" ++ String.singleton (Char.ofNat 39) ++ "s Workspace"
    let tenant : TenantRow := ⟨env.newTenantId, name, slug⟩
    let db2 := { db1 with tenants := db1.tenants ++ [tenant] }
    let db3 := { db2 with tenantUsers :=
      db2.tenantUsers ++ [⟨newUser.id, tenant.id, TenantRole.OWNER, env.now⟩] }
    .ok (db3, newUser, tenant.id)

/-- `AuthService.register`: reject a taken email, then run the atomic
transaction (`registerTx` — on error nothing is persisted), then issue tokens.
Returns the post-state alongside the outcome. -/
def register (env : Env) (db : Db) (dto : RegisterDto) :
    Db × Except AppError AuthResult :=
  match UserRepository.findByEmail db dto.email with
  | some _ => (db, .error (.userAlreadyExists dto.email))
  | none =>
    match registerTx env db dto with
    | .error e => (db, .error e)
    | .ok (db2, user, activeTenantId) =>
      let (db3, tokens) := generateTokens env db2 user.id activeTenantId
      (db3, .ok ⟨UserMapper.excludePassword user, tokens⟩)

/-- `AuthService.login` (Prisma service): resolve the user by email, compare
the password, fetch the memberships via
`prisma.tenantUser.findMany({ where: { userId } })` — note: no `orderBy`
clause, so the rows come back in whatever order the store returns them — fail
with `UserHasNoTenants` on zero rows, and use `tenantUsers[0].tenantId` as the
active tenant. -/
def login (env : Env) (db : Db) (dto : LoginDto) :
    Db × Except AppError TokenPair :=
  match UserRepository.findByEmailWithPassword db dto.email with
  | none => (db, .error .invalidCredentials)
  | some user =>
    if env.bcryptCompare dto.password user.password then
      match db.tenantUsers.filter (fun m => m.userId == user.id) with
      | [] => (db, .error .userHasNoTenants)
      | tu :: _ =>
        let (db1, tokens) := generateTokens env db user.id tu.tenantId
        (db1, .ok tokens)
    else
      (db, .error .invalidCredentials)

/-- `AuthService.refreshToken`: verify the JWT, look the hash up in the store,
check `isValid`, re-resolve the user, then issue a fresh pair preserving the
payload's `tenantId`.  Every failure path — including the catch-all around the
body — raises `InvalidRefreshToken`. -/
def refreshToken (env : Env) (db : Db) (token : TokenStr) :
    Db × Except AppError TokenPair :=
  match jwtVerify token env.jwtRefreshSecret env.now with
  | none => (db, .error .invalidRefreshToken)
  | some payload =>
    match RefreshTokenRepository.findByToken env db token with
    | none => (db, .error .invalidRefreshToken)
    | some storedToken =>
      if storedToken.isValid env.now then
        match UserRepository.findById db payload.sub with
        | none => (db, .error .invalidRefreshToken)
        | some user =>
          let (db1, tokens) := generateTokens env db user.id payload.tenantId
          (db1, .ok tokens)
      else
        (db, .error .invalidRefreshToken)

/-- `AuthService.logout`: attempt to revoke the stored token; the catch-all
returns the same generic success message whether revocation succeeded, the
token was unknown (Prisma `update` throw), or the store failed internally
(modelled by `infraOk = false`). -/
def logout (env : Env) (db : Db) (token : TokenStr) (infraOk : Bool) :
    Db × String :=
  match (if infraOk then RefreshTokenRepository.revoke env db token else .error ()) with
  | .ok db1 => (db1, "Logged out successfully")
  | .error _ => (db, "Logged out successfully")

/-- The two writes batched in `prisma.$transaction([...])` inside
`AuthService.acceptInvitation`: upsert the membership for
`(user.id, invitation.tenantId)` — updating the role when a row exists,
creating it otherwise — and set the invitation's `accepted` flag. -/
def acceptTx (env : Env) (db : Db) (user : UserRow) (inv : InvitationRow) : Db :=
  let tus :=
    if db.tenantUsers.any (fun m => m.userId == user.id && m.tenantId == inv.tenantId) then
      db.tenantUsers.map (fun m =>
        if m.userId == user.id && m.tenantId == inv.tenantId then
          { m with role := inv.role }
        else m)
    else
      db.tenantUsers ++ [⟨user.id, inv.tenantId, inv.role, env.now⟩]
  let invs := db.invitations.map (fun i =>
    if i.id == inv.id then { i with accepted := true } else i)
  { db with tenantUsers := tus, invitations := invs }

/-- Tail of `AuthService.acceptInvitation` after the user is resolved or
created: run the atomic membership/accepted transaction (`txOk = false` models
an infrastructure failure of the batch, which applies neither write), then
issue tokens bound to the invitation's tenant. -/
def acceptTxAndTokens (env : Env) (db : Db) (user : UserRow) (inv : InvitationRow)
    (txOk : Bool) : Db × Except AppError AuthResult :=
  if txOk then
    let db2 := acceptTx env db user inv
    let (db3, tokens) := generateTokens env db2 user.id inv.tenantId
    (db3, .ok ⟨UserMapper.excludePassword user, tokens⟩)
  else
    (db, .error .infra)

/-- `AuthService.acceptInvitation`: resolve the invitation by token, reject
already-accepted and expired invitations, resolve the user by the invitation's
email — creating it (outside any transaction) from the supplied password when
absent — then atomically upsert the membership and mark the invitation
accepted, and issue tokens for the invitation's tenant. -/
def acceptInvitation (env : Env) (db : Db) (dto : AcceptInvitationDto)
    (txOk : Bool) : Db × Except AppError AuthResult :=
  match db.invitations.find? (fun i => i.token == dto.token) with
  | none => (db, .error (.invitationNotFound dto.token))
  | some inv =>
    if inv.accepted then
      (db, .error .invitationAlreadyAccepted)
    else if inv.isExpired env.now then
      (db, .error .invitationExpired)
    else
      match UserRepository.findByEmailWithPassword db inv.email with
      | some user => acceptTxAndTokens env db user inv txOk
      | none =>
        match dto.password with
        | none => (db, .error .passwordRequired)
        | some pw =>
          let newUser : UserRow := ⟨env.newUserId, inv.email, env.bcryptHash pw, none, none⟩
          let db1 := { db with users := db.users ++ [newUser] }
          acceptTxAndTokens env db1 newUser inv txOk

end AuthService

/-- One call into the authentication core, for stating properties quantified
over every operation the service exposes. -/
inductive Op
  | register (dto : RegisterDto)
  | login (dto : LoginDto)
  | refresh (token : TokenStr)
  | logout (token : TokenStr) (infraOk : Bool)
  | accept (dto : AcceptInvitationDto) (txOk : Bool)
deriving Repr

/-- The database state after one call, whether it succeeded or failed. -/
def step (env : Env) (db : Db) : Op → Db
  | .register dto => (AuthService.register env db dto).1
  | .login dto => (AuthService.login env db dto).1
  | .refresh token => (AuthService.refreshToken env db token).1
  | .logout token infraOk => (AuthService.logout env db token infraOk).1
  | .accept dto txOk => (AuthService.acceptInvitation env db dto txOk).1

/-- Run a sequence of calls. -/
def runOps (env : Env) (ops : List Op) (db : Db) : Db :=
  ops.foldl (step env) db

/-- The `tenantId` claim a token string carries, when it is a JWT. -/
def tokenTenantId : TokenStr → Option String
  | .jwt j => some j.tenantId
  | .garbage _ => none

/-- The expiry claim a token string carries, when it is a JWT. -/
def tokenExp : TokenStr → Option Nat
  | .jwt j => some j.exp
  | .garbage _ => none

/-- The `tenantId` bound into the token pair a login issues (observer used to
state properties of `AuthService.login`). -/
def AuthService.loginTenantId (env : Env) (db : Db) (dto : LoginDto) : Option String :=
  match (AuthService.login env db dto).2 with
  | .ok pair => tokenTenantId pair.refreshToken
  | .error _ => none

/-- Every record of the refresh-token store holds the SHA-256 image of some
raw token value. -/
def HashedStore (env : Env) (db : Db) : Prop :=
  ∀ rec ∈ db.refreshTokens, ∃ raw : TokenStr, rec.token = env.hash raw

/-- An empty database. -/
def dbEmpty : Db := ⟨[], [], [], [], []⟩

/-- A concrete environment for evaluating the flows on sample states. -/
def envW : Env :=
  { hash := fun _ => "h"
    jwtSecret := "as"
    jwtRefreshSecret := "rs"
    jwtExpiresInMs := 1000
    jwtRefreshExpiresInMs := none
    now := 0
    newUserId := "u9"
    newTenantId := "t9"
    randSuffix := "r4nd0m"
    bcryptHash := fun p => "b:" ++ p
    bcryptCompare := fun p h => h == "b:" ++ p }

/-- A sample state: one user holding one valid stored refresh token, and one
pending invitation for a fresh email. -/
def dbW : Db :=
  { users := [⟨"u1", "a@x.com", "b:pw", none, none⟩]
    tenants := [⟨"tA", "Acme", "acme"⟩]
    tenantUsers := []
    refreshTokens := [⟨"u1", "h", 100, false⟩]
    invitations := [⟨"i1", "c@x.com", "inv-tok-1", TenantRole.MEMBER, 50, false, "tA"⟩] }

/-- A refresh token for `dbW`: subject `u1`, tenant `tA`, signed with the
refresh secret, unexpired at `envW.now`. -/
def jW : Jwt := ⟨"u1", "tA", "rs", 0, 50⟩

/-- Environment for exercising `login` on an unordered membership store. -/
def envC2 : Env :=
  { envW with newUserId := "u8", newTenantId := "t8" }

/-- A state whose membership rows are *not* in creation order: the row created
at time 5 (tenant `tA`) precedes the row created at time 3 (tenant `tB`). -/
def dbC2 : Db :=
  { users := [⟨"u1", "a@x.com", "b:pw", none, none⟩]
    tenants := [⟨"tA", "A", "a"⟩, ⟨"tB", "B", "b"⟩]
    tenantUsers := [⟨"u1", "tA", TenantRole.MEMBER, 5⟩, ⟨"u1", "tB", TenantRole.OWNER, 3⟩]
    refreshTokens := []
    invitations := [] }

/-- Environment whose configured refresh lifetime (`jwt.refreshExpiresIn`)
is 7 days rather than the default 30. -/
def envC9 : Env :=
  { envW with jwtRefreshExpiresInMs := some (7 * dayMs) }

/-- C6: for every input token string — valid, already revoked, or garbage —
and whether or not the store-level revocation succeeds, `logout` returns the
same generic success message and never surfaces a failure. -/
theorem logout_always_generic_success (env : Env) (db : Db) (t : TokenStr)
    (infraOk : Bool) :
    (AuthService.logout env db t infraOk).2 = "Logged out successfully" := by
  unfold AuthService.logout
  split <;> rfl

/-- C5: every failing `refreshToken` call — bad signature, malformed token,
expired JWT, token absent from the store, stored token expired or revoked, or
the subject user gone — surfaces the single error `InvalidRefreshToken`. -/
theorem refreshToken_single_error (env : Env) (db : Db) (t : TokenStr)
    (e : AppError) (h : (AuthService.refreshToken env db t).2 = .error e) :
    e = .invalidRefreshToken := by
  unfold AuthService.refreshToken at h
  split at h
  · exact (Except.error.inj h).symm
  · split at h
    · exact (Except.error.inj h).symm
    · split at h
      · split at h
        · exact (Except.error.inj h).symm
        · simp at h
      · exact (Except.error.inj h).symm

/-- Witness for C5: a garbage input fails, and the theorem pins its error to
`InvalidRefreshToken`. -/
theorem refreshToken_single_error_witness :
    ∃ e, (AuthService.refreshToken envW dbW (.garbage "zzz")).2 = .error e ∧
      e = .invalidRefreshToken :=
  ⟨.invalidRefreshToken, rfl,
    refreshToken_single_error envW dbW (.garbage "zzz") _ rfl⟩



/-- C1: a successful refresh issues a pair whose two tokens carry exactly the
`tenantId` of the presented refresh token's payload, and the flow never
consults the membership store: replacing the memberships by anything —
including deleting the user's membership in that tenant — yields the same
outcome, differing only in the untouched membership store itself. -/
theorem refreshToken_preserves_payload_tenant (env : Env) (db : Db) (j : Jwt)
    (db' : Db) (pair : TokenPair) (tus' : List TenantUserRow)
    (h : AuthService.refreshToken env db (.jwt j) = (db', .ok pair)) :
    tokenTenantId pair.accessToken = some j.tenantId ∧
    tokenTenantId pair.refreshToken = some j.tenantId ∧
    AuthService.refreshToken env { db with tenantUsers := tus' } (.jwt j)
      = ({ db' with tenantUsers := tus' }, .ok pair) := by
  unfold AuthService.refreshToken at h ⊢
  cases hver : jwtVerify (.jwt j) env.jwtRefreshSecret env.now with
  | none => rw [hver] at h; simp at h
  | some payload =>
    have hp : payload = ⟨j.sub, j.tenantId⟩ := by
      simp only [jwtVerify] at hver
      split at hver
      · exact (Option.some.inj hver).symm
      · cases hver
    subst hp
    rw [hver] at h
    cases hf : RefreshTokenRepository.findByToken env db (.jwt j) with
    | none => rw [hf] at h; simp at h
    | some stored =>
      have hf2 : RefreshTokenRepository.findByToken env
          { db with tenantUsers := tus' } (.jwt j) = some stored := hf
      rw [hf] at h
      simp only [hf2]
      cases hv : stored.isValid env.now with
      | false => simp only [hv] at h; simp at h
      | true =>
        simp only [hv]
        simp only [hv] at h
        cases hu : UserRepository.findById db j.sub with
        | none => simp only [hu] at h; simp at h
        | some user =>
          have hu2 : UserRepository.findById { db with tenantUsers := tus' } j.sub
              = some user := hu
          simp only [hu] at h
          simp only [hu2]
          simp only [AuthService.generateTokens, RefreshTokenRepository.create,
            if_true, Prod.mk.injEq, Except.ok.injEq] at h ⊢
          obtain ⟨hdb, hpair⟩ := h
          subst hdb hpair
          simp [tokenTenantId, jwtSign]

/-- Witness for C1: in `dbW` the user `u1` holds a valid stored refresh token
for tenant `tA`; with the membership store emptied (the user belongs to no
tenant at all) refresh still succeeds and still binds the pair to `tA`. -/
theorem refreshToken_preserves_payload_tenant_witness :
    tokenTenantId
        (TokenPair.mk (.jwt ⟨"u1", "tA", "as", 0, 1000⟩)
          (.jwt ⟨"u1", "tA", "rs", 0, 30 * dayMs⟩)).refreshToken = some "tA" ∧
    AuthService.refreshToken envW { dbW with tenantUsers := [] } (.jwt jW)
      = ({ dbW with
            tenantUsers := [],
            refreshTokens := dbW.refreshTokens ++ [⟨"u1", "h", 30 * dayMs, false⟩] },
         .ok ⟨.jwt ⟨"u1", "tA", "as", 0, 1000⟩, .jwt ⟨"u1", "tA", "rs", 0, 30 * dayMs⟩⟩) := by
  have h := refreshToken_preserves_payload_tenant envW dbW jW
    { dbW with refreshTokens := dbW.refreshTokens ++ [⟨"u1", "h", 30 * dayMs, false⟩] }
    ⟨.jwt ⟨"u1", "tA", "as", 0, 1000⟩, .jwt ⟨"u1", "tA", "rs", 0, 30 * dayMs⟩⟩ []
    (by rfl)
  exact ⟨h.2.1, h.2.2⟩

/-- C8: a successful refresh leaves every pre-existing refresh-token record
untouched — in particular the presented token's record keeps `revoked = false`
and is still found by the same hash lookup — and appends exactly one new
record; nothing else in the database changes. -/
theorem refreshToken_no_rotation (env : Env) (db : Db) (t : TokenStr)
    (db' : Db) (pair : TokenPair)
    (h : AuthService.refreshToken env db t = (db', .ok pair)) :
    (∃ rec : RefreshTokenRow, db'.refreshTokens = db.refreshTokens ++ [rec] ∧
        rec.revoked = false ∧ rec.token = env.hash pair.refreshToken) ∧
    (∀ s, RefreshTokenRepository.findByToken env db t = some s →
        RefreshTokenRepository.findByToken env db' t = some s ∧ s.revoked = false) ∧
    db'.users = db.users ∧ db'.tenants = db.tenants ∧
    db'.tenantUsers = db.tenantUsers ∧ db'.invitations = db.invitations := by
  unfold AuthService.refreshToken at h
  cases hver : jwtVerify t env.jwtRefreshSecret env.now with
  | none => rw [hver] at h; simp at h
  | some payload =>
    rw [hver] at h
    cases hf : RefreshTokenRepository.findByToken env db t with
    | none => rw [hf] at h; simp at h
    | some stored =>
      rw [hf] at h
      cases hv : stored.isValid env.now with
      | false => simp only [hv] at h; simp at h
      | true =>
        simp only [hv] at h
        cases hu : UserRepository.findById db payload.sub with
        | none => simp only [hu] at h; simp at h
        | some user =>
          simp only [hu] at h
          simp only [AuthService.generateTokens, RefreshTokenRepository.create,
            if_true, Prod.mk.injEq, Except.ok.injEq] at h
          obtain ⟨hdb, hpair⟩ := h
          subst hdb hpair
          have hrev : stored.revoked = false := by
            simp [RefreshTokenRow.isValid, RefreshTokenRow.isExpired,
              Bool.and_eq_true] at hv
            exact hv.2
          refine ⟨⟨_, rfl, rfl, rfl⟩, ?_, rfl, rfl, rfl, rfl⟩
          intro s hs
          obtain rfl : stored = s := Option.some.inj hs
          refine ⟨?_, hrev⟩
          show (db.refreshTokens ++ [_]).find? (fun r => r.token == env.hash t)
            = some stored
          have hfl : db.refreshTokens.find? (fun r => r.token == env.hash t)
              = some stored := hf
          simp only [List.find?_append, hfl, Option.or_some, Option.some.injEq]

/-- Witness for C8: refreshing `u1`'s valid token in `dbW` adds one unrevoked
record and the old stored record is still found, unrevoked, afterwards. -/
theorem refreshToken_no_rotation_witness :
    (∃ rec : RefreshTokenRow,
      ({ dbW with refreshTokens := dbW.refreshTokens ++ [⟨"u1", "h", 30 * dayMs, false⟩] } : Db).refreshTokens
        = dbW.refreshTokens ++ [rec] ∧ rec.revoked = false) ∧
    RefreshTokenRepository.findByToken envW
        { dbW with refreshTokens := dbW.refreshTokens ++ [⟨"u1", "h", 30 * dayMs, false⟩] }
        (.jwt jW)
      = some ⟨"u1", "h", 100, false⟩ := by
  have h := refreshToken_no_rotation envW dbW (.jwt jW)
    { dbW with refreshTokens := dbW.refreshTokens ++ [⟨"u1", "h", 30 * dayMs, false⟩] }
    ⟨.jwt ⟨"u1", "tA", "as", 0, 1000⟩, .jwt ⟨"u1", "tA", "rs", 0, 30 * dayMs⟩⟩ (by rfl)
  refine ⟨⟨h.1.choose, h.1.choose_spec.1, h.1.choose_spec.2.1⟩, ?_⟩
  exact (h.2.1 ⟨"u1", "h", 100, false⟩ (by rfl)).1

/-- C9 (amended): every token issuance persists the refresh-token record with
expiry `now + 30 days`, hard-coded, while the refresh JWT itself is signed
with the configured `jwt.refreshExpiresIn` lifetime (defaulted to 30 days);
the two coincide exactly when the effective configured lifetime is 30 days. -/
theorem generateTokens_persisted_expiry_hardcoded (env : Env) (db : Db)
    (userId tenantId : String) :
    (AuthService.generateTokens env db userId tenantId).1.refreshTokens
      = db.refreshTokens ++
        [⟨userId,
          env.hash (AuthService.generateTokens env db userId tenantId).2.refreshToken,
          env.now + 30 * dayMs, false⟩] ∧
    tokenExp (AuthService.generateTokens env db userId tenantId).2.refreshToken
      = some (env.now + env.jwtRefreshExpiresInMs.getD (30 * dayMs)) ∧
    (env.now + 30 * dayMs = env.now + env.jwtRefreshExpiresInMs.getD (30 * dayMs)
      ↔ env.jwtRefreshExpiresInMs.getD (30 * dayMs) = 30 * dayMs) := by
  refine ⟨rfl, rfl, ?_⟩
  omega

/-- Counterexample for C9 as stated: with `jwt.refreshExpiresIn` configured to
7 days, the refresh JWT is signed to expire after 7 days but the persisted
record's expiry is still 30 days — the stored expiry does not match the
configured lifetime. -/
theorem generateTokens_expiry_counterexample :
    tokenExp (AuthService.generateTokens envC9 dbEmpty "u1" "t1").2.refreshToken
      = some (envC9.now + 7 * dayMs) ∧
    (AuthService.generateTokens envC9 dbEmpty "u1" "t1").1.refreshTokens
      = [⟨"u1", "h", envC9.now + 30 * dayMs, false⟩] ∧
    envC9.now + 30 * dayMs ≠ envC9.now + 7 * dayMs := by
  exact ⟨rfl, rfl, by decide⟩

/-- C2 (amended): `login` binds the issued pair to the tenant of the *first*
membership row returned by the unordered `tenantUser.findMany` query; when the
store returns the user's membership rows in ascending creation order, that is
the earliest-created membership. -/
theorem login_first_row_tenant (env : Env) (db : Db) (dto : LoginDto)
    (user : UserRow)
    (hu : UserRepository.findByEmailWithPassword db dto.email = some user)
    (hpw : env.bcryptCompare dto.password user.password = true)
    (hsorted : (db.tenantUsers.filter (fun m => m.userId == user.id)).Pairwise
        (fun a b => a.createdAt ≤ b.createdAt))
    (hne : db.tenantUsers.filter (fun m => m.userId == user.id) ≠ []) :
    ∃ m ∈ db.tenantUsers.filter (fun m => m.userId == user.id),
      (∀ m' ∈ db.tenantUsers.filter (fun m => m.userId == user.id),
          m.createdAt ≤ m'.createdAt) ∧
      AuthService.loginTenantId env db dto = some m.tenantId := by
  cases hl : db.tenantUsers.filter (fun m => m.userId == user.id) with
  | nil => exact absurd hl hne
  | cons tu rest =>
    refine ⟨tu, List.mem_cons_self tu rest, ?_, ?_⟩
    · intro m' hm'
      rcases List.mem_cons.mp hm' with h | h
      · subst h; exact le_refl _
      · rw [hl] at hsorted
        exact (List.pairwise_cons.mp hsorted).1 m' h
    · simp only [AuthService.loginTenantId, AuthService.login, hu, hpw, if_true, hl]
      rfl

/-- Witness for C2 (amended): when the membership rows are stored in ascending
creation order, login picks the earliest-created membership's tenant. -/
theorem login_first_row_tenant_witness :
    ∃ m ∈ ({ dbC2 with tenantUsers := [⟨"u1", "tB", TenantRole.OWNER, 3⟩,
          ⟨"u1", "tA", TenantRole.MEMBER, 5⟩] } : Db).tenantUsers.filter
        (fun m => m.userId == "u1"),
      (∀ m' ∈ ({ dbC2 with tenantUsers := [⟨"u1", "tB", TenantRole.OWNER, 3⟩,
            ⟨"u1", "tA", TenantRole.MEMBER, 5⟩] } : Db).tenantUsers.filter
          (fun m => m.userId == "u1"),
          m.createdAt ≤ m'.createdAt) ∧
      AuthService.loginTenantId envC2
          { dbC2 with tenantUsers := [⟨"u1", "tB", TenantRole.OWNER, 3⟩,
              ⟨"u1", "tA", TenantRole.MEMBER, 5⟩] } ⟨"a@x.com", "pw"⟩
        = some m.tenantId :=
  login_first_row_tenant envC2
    { dbC2 with tenantUsers := [⟨"u1", "tB", TenantRole.OWNER, 3⟩,
        ⟨"u1", "tA", TenantRole.MEMBER, 5⟩] }
    ⟨"a@x.com", "pw"⟩ ⟨"u1", "a@x.com", "b:pw", none, none⟩
    rfl rfl (by decide) (by decide)

/-- Counterexample for C2 as stated: in `dbC2` the store returns `u1`'s
membership rows out of creation order (the row created at time 5 first); login
then issues tokens for `tA`, although the earliest-created membership — the
unique row with strictly smaller `createdAt` — is for `tB`. -/
theorem login_earliest_counterexample :
    AuthService.loginTenantId envC2 dbC2 ⟨"a@x.com", "pw"⟩ = some "tA" ∧
    (⟨"u1", "tB", TenantRole.OWNER, 3⟩ : TenantUserRow) ∈ dbC2.tenantUsers ∧
    (∀ m ∈ dbC2.tenantUsers, m.userId = "u1" → m.tenantId ≠ "tB" → 3 < m.createdAt) ∧
    ("tA" : String) ≠ "tB" := by decide


/-- Helper: a successful register transaction created the user row and a
membership row for it together, in the same committed write set. -/
theorem registerTx_ok_shape (env : Env) (db : Db) (dto : RegisterDto)
    (db2 : Db) (user : UserRow) (tid : String)
    (h : AuthService.registerTx env db dto = .ok (db2, user, tid)) :
    user = ⟨env.newUserId, dto.email, env.bcryptHash dto.password,
      dto.firstName, dto.lastName⟩ ∧
    db2.users = db.users ++ [user] ∧
    (∃ m : TenantUserRow, db2.tenantUsers = db.tenantUsers ++ [m] ∧
      m.userId = env.newUserId ∧ m.tenantId = tid) := by
  unfold AuthService.registerTx at h
  cases htid : dto.tenantId with
  | some tid0 =>
    simp only [htid] at h
    cases hft : db.tenants.find? (fun t => t.id == tid0) with
    | none => simp only [hft] at h; cases h
    | some t0 =>
      simp only [hft] at h
      have hx := Except.ok.inj h
      simp only [Prod.mk.injEq] at hx
      obtain ⟨h1, h2, h3⟩ := hx
      subst h1 h2 h3
      exact ⟨rfl, rfl, ⟨_, rfl, rfl, rfl⟩⟩
  | none =>
    simp only [htid] at h
    have hx := Except.ok.inj h
    simp only [Prod.mk.injEq] at hx
    obtain ⟨h1, h2, h3⟩ := hx
    subst h1 h2 h3
    exact ⟨rfl, rfl, ⟨_, rfl, rfl, rfl⟩⟩

/-- Helper: when a target tenant id is supplied and no such tenant exists, the
register transaction aborts with `TenantNotFound`. -/
theorem registerTx_tenantNotFound (env : Env) (db : Db) (dto : RegisterDto)
    (tid : String) (htid : dto.tenantId = some tid)
    (hnot : ∀ t ∈ db.tenants, t.id ≠ tid) :
    AuthService.registerTx env db dto = .error (.tenantNotFound tid) := by
  unfold AuthService.registerTx
  simp only [htid]
  have hft : db.tenants.find? (fun t => t.id == tid) = none := by
    rw [List.find?_eq_none]
    intro t ht
    simpa using hnot t ht
  simp only [hft]

/-- C3: `register` is atomic.  Any failing run — in particular a supplied
`tenantId` with no matching tenant, which fails with `TenantNotFound` — leaves
the database exactly as it was, persisting no User and no Membership; and any
successful run persists the new User together with a Membership for it in the
same committed state. -/
theorem register_atomic (env : Env) (db : Db) (dto : RegisterDto) :
    (∀ e, (AuthService.register env db dto).2 = .error e →
        (AuthService.register env db dto).1 = db) ∧
    (∀ tid, dto.tenantId = some tid →
        (∀ u ∈ db.users, u.email ≠ dto.email) →
        (∀ t ∈ db.tenants, t.id ≠ tid) →
        AuthService.register env db dto = (db, .error (.tenantNotFound tid))) ∧
    (∀ res, (AuthService.register env db dto).2 = .ok res →
        (∃ u ∈ (AuthService.register env db dto).1.users,
            u.id = env.newUserId ∧ u.email = dto.email) ∧
        (∃ m ∈ (AuthService.register env db dto).1.tenantUsers,
            m.userId = env.newUserId)) := by
  unfold AuthService.register
  cases hfe : UserRepository.findByEmail db dto.email with
  | some u0 =>
    refine ⟨fun e he => rfl, ?_, fun res hres => by simp at hres⟩
    intro tid htid hnone hnot
    exfalso
    have hmem := List.mem_of_find?_eq_some hfe
    have hbeq := List.find?_some hfe
    exact hnone u0 hmem (by simpa using hbeq)
  | none =>
    cases htx : AuthService.registerTx env db dto with
    | error e0 =>
      refine ⟨fun e he => rfl, ?_, fun res hres => by simp at hres⟩
      intro tid htid hnone hnot
      have hch := registerTx_tenantNotFound env db dto tid htid hnot
      rw [htx] at hch
      obtain rfl := Except.error.inj hch
      rfl
    | ok trip =>
      obtain ⟨db2, user, tid⟩ := trip
      refine ⟨fun e he => by simp [AuthService.generateTokens] at he, ?_, ?_⟩
      · intro tid0 htid0 hnone hnot
        have hch := registerTx_tenantNotFound env db dto tid0 htid0 hnot
        rw [htx] at hch
        exact absurd hch (by simp)
      · intro res hres
        obtain ⟨hu, hus, m, hms, hmid, hmtid⟩ :=
          registerTx_ok_shape env db dto db2 user tid htx
        constructor
        · refine ⟨user, ?_, ?_, ?_⟩
          · show user ∈ db2.users
            rw [hus]
            simp
          · rw [hu]
          · rw [hu]
        · refine ⟨m, ?_, hmid⟩
          show m ∈ db2.tenantUsers
          rw [hms]
          simp

/-- Witness for C3: registering into a nonexistent tenant `tX` fails with
`TenantNotFound` and leaves `dbW` untouched — the user row created inside the
transaction is not persisted. -/
theorem register_atomic_witness :
    AuthService.register envW dbW ⟨"new@x.com", "pw2", none, none, some "tX"⟩
      = (dbW, .error (.tenantNotFound "tX")) :=
  (register_atomic envW dbW ⟨"new@x.com", "pw2", none, none, some "tX"⟩).2.1
    "tX" rfl (by decide) (by decide)

/-- C10: in `acceptInvitation`, when no user exists for the invitation's email
and a password is supplied, the user row is created before and outside the
membership/accepted transaction: if that transaction fails, the outcome is an
error, yet the new user row is persisted while the membership store and the
invitation (still unaccepted) are untouched. -/
theorem acceptInvitation_user_created_outside_tx (env : Env) (db : Db)
    (dto : AcceptInvitationDto) (inv : InvitationRow) (pw : String)
    (hfind : db.invitations.find? (fun i => i.token == dto.token) = some inv)
    (hacc : inv.accepted = false)
    (hexp : inv.isExpired env.now = false)
    (hnouser : UserRepository.findByEmailWithPassword db inv.email = none)
    (hpw : dto.password = some pw) :
    AuthService.acceptInvitation env db dto false
      = ({ db with users := db.users ++
            [⟨env.newUserId, inv.email, env.bcryptHash pw, none, none⟩] },
         .error .infra) ∧
    (AuthService.acceptInvitation env db dto false).1.tenantUsers
      = db.tenantUsers ∧
    (AuthService.acceptInvitation env db dto false).1.invitations
      = db.invitations := by
  have hmain : AuthService.acceptInvitation env db dto false
      = ({ db with users := db.users ++
            [⟨env.newUserId, inv.email, env.bcryptHash pw, none, none⟩] },
         .error .infra) := by
    unfold AuthService.acceptInvitation AuthService.acceptTxAndTokens
    simp only [hfind, hacc, hexp, hnouser, hpw, Bool.false_eq_true, if_false]
  exact ⟨hmain, by rw [hmain], by rw [hmain]⟩

/-- Witness for C10: in `dbW` the pending invitation `inv-tok-1` targets the
fresh email `c@x.com`; with a failing transaction, accepting it persists the
new user while membership and invitation state stay unchanged. -/
theorem acceptInvitation_user_created_outside_tx_witness :
    AuthService.acceptInvitation envW dbW ⟨"inv-tok-1", some "npw"⟩ false
      = ({ dbW with users := dbW.users ++
            [⟨"u9", "c@x.com", "b:npw", none, none⟩] },
         .error .infra) :=
  (acceptInvitation_user_created_outside_tx envW dbW ⟨"inv-tok-1", some "npw"⟩
    ⟨"i1", "c@x.com", "inv-tok-1", TenantRole.MEMBER, 50, false, "tA"⟩ "npw"
    rfl rfl rfl rfl rfl).1

/-- Helper: the register transaction does not touch invitations or the
refresh-token store. -/
theorem registerTx_stores_frame (env : Env) (db : Db) (dto : RegisterDto)
    (db2 : Db) (user : UserRow) (tid : String)
    (h : AuthService.registerTx env db dto = .ok (db2, user, tid)) :
    db2.invitations = db.invitations ∧ db2.refreshTokens = db.refreshTokens := by
  unfold AuthService.registerTx at h
  cases htid : dto.tenantId with
  | some tid0 =>
    simp only [htid] at h
    cases hft : db.tenants.find? (fun t => t.id == tid0) with
    | none => simp only [hft] at h; cases h
    | some t0 =>
      simp only [hft] at h
      have hx := Except.ok.inj h
      simp only [Prod.mk.injEq] at hx
      obtain ⟨h1, h2, h3⟩ := hx
      subst h1
      exact ⟨rfl, rfl⟩
  | none =>
    simp only [htid] at h
    have hx := Except.ok.inj h
    simp only [Prod.mk.injEq] at hx
    obtain ⟨h1, h2, h3⟩ := hx
    subst h1
    exact ⟨rfl, rfl⟩

/-- Helper: an accepted invitation survives every operation of the core with
its identity intact and its `accepted` flag still true. -/
theorem step_invitations_monotone (env : Env) (db : Db) (op : Op)
    (inv : InvitationRow) (hmem : inv ∈ db.invitations)
    (hacc : inv.accepted = true) :
    ∃ inv' ∈ (step env db op).invitations,
      inv'.id = inv.id ∧ inv'.token = inv.token ∧ inv'.accepted = true := by
  have base : ∀ dbx : Db, dbx.invitations = db.invitations →
      ∃ inv' ∈ dbx.invitations,
        inv'.id = inv.id ∧ inv'.token = inv.token ∧ inv'.accepted = true :=
    fun dbx hx => ⟨inv, by rw [hx]; exact hmem, rfl, rfl, hacc⟩
  cases op with
  | register dto =>
    show ∃ inv' ∈ (AuthService.register env db dto).1.invitations, _
    unfold AuthService.register
    cases hfe : UserRepository.findByEmail db dto.email with
    | some u0 => exact base db rfl
    | none =>
      cases htx : AuthService.registerTx env db dto with
      | error e0 => exact base db rfl
      | ok trip =>
        obtain ⟨db2, user, tid⟩ := trip
        exact base (AuthService.generateTokens env db2 user.id tid).1
          (registerTx_stores_frame env db dto db2 user tid htx).1
  | login dto =>
    show ∃ inv' ∈ (AuthService.login env db dto).1.invitations, _
    unfold AuthService.login
    cases hfe : UserRepository.findByEmailWithPassword db dto.email with
    | none => exact base db rfl
    | some user =>
      by_cases hc : env.bcryptCompare dto.password user.password = true
      · simp only [hc, if_true]
        cases hl : db.tenantUsers.filter (fun m => m.userId == user.id) with
        | nil => exact base db rfl
        | cons tu rest => exact base _ rfl
      · simp only [hc, if_false]
        exact base db rfl
  | refresh t =>
    show ∃ inv' ∈ (AuthService.refreshToken env db t).1.invitations, _
    unfold AuthService.refreshToken
    cases hver : jwtVerify t env.jwtRefreshSecret env.now with
    | none => exact base db rfl
    | some payload =>
      cases hf : RefreshTokenRepository.findByToken env db t with
      | none => exact base db rfl
      | some stored =>
        cases hv : stored.isValid env.now with
        | false => simp only [hv]; exact base db rfl
        | true =>
          simp only [hv]
          cases hu : UserRepository.findById db payload.sub with
          | none => exact base db rfl
          | some user => exact base _ rfl
  | logout t infraOk =>
    show ∃ inv' ∈ (AuthService.logout env db t infraOk).1.invitations, _
    unfold AuthService.logout RefreshTokenRepository.revoke
    cases infraOk with
    | false => exact base db rfl
    | true =>
      by_cases hany : db.refreshTokens.any (fun r => r.token == env.hash t) = true
      · simp only [hany, if_true]
        exact base _ rfl
      · simp only [hany, if_false]
        exact base db rfl
  | accept dto txOk =>
    show ∃ inv' ∈ (AuthService.acceptInvitation env db dto txOk).1.invitations, _
    unfold AuthService.acceptInvitation AuthService.acceptTxAndTokens
    cases hf : db.invitations.find? (fun i => i.token == dto.token) with
    | none => exact base db rfl
    | some inv0 =>
      by_cases ha0 : inv0.accepted = true
      · simp only [ha0, if_true]
        exact base db rfl
      · simp only [ha0, if_false]
        by_cases he0 : inv0.isExpired env.now = true
        · simp only [he0, if_true]
          exact base db rfl
        · simp only [he0, if_false]
          cases hu : UserRepository.findByEmailWithPassword db inv0.email with
          | some user =>
            cases txOk with
            | false => exact base db rfl
            | true =>
              refine ⟨_, List.mem_map_of_mem _ hmem, ?_⟩
              by_cases hb : (inv.id == inv0.id) = true
              · simp [hb]
              · simp [hb, hacc]
          | none =>
            cases hpw : dto.password with
            | none => exact base db rfl
            | some pw =>
              cases txOk with
              | false => exact base _ rfl
              | true =>
                refine ⟨_, List.mem_map_of_mem _ hmem, ?_⟩
                by_cases hb : (inv.id == inv0.id) = true
                · simp [hb]
                · simp [hb, hacc]

/-- C4: invitations are single-use.  (i) Once an invitation's `accepted` flag
is true, no operation of the core ever turns it back to false; (ii) accepting
an already-accepted invitation fails with `InvitationAlreadyAccepted` and
changes nothing; (iii) the membership upsert and the accepted-flag write form
one atomic transaction: when the transaction fails neither is applied, and a
successful acceptance applies both. -/
theorem invitation_single_use (env : Env) (db : Db) :
    (∀ (op : Op) (inv : InvitationRow), inv ∈ db.invitations →
      inv.accepted = true →
      ∃ inv' ∈ (step env db op).invitations,
        inv'.id = inv.id ∧ inv'.token = inv.token ∧ inv'.accepted = true) ∧
    (∀ (dto : AcceptInvitationDto) (txOk : Bool) (inv : InvitationRow),
      db.invitations.find? (fun i => i.token == dto.token) = some inv →
      inv.accepted = true →
      AuthService.acceptInvitation env db dto txOk
        = (db, .error .invitationAlreadyAccepted)) ∧
    (∀ dto : AcceptInvitationDto,
      (AuthService.acceptInvitation env db dto false).1.tenantUsers
          = db.tenantUsers ∧
      (AuthService.acceptInvitation env db dto false).1.invitations
          = db.invitations) ∧
    (∀ (dto : AcceptInvitationDto) (db' : Db) (res : AuthResult),
      AuthService.acceptInvitation env db dto true = (db', .ok res) →
      ∃ inv ∈ db.invitations,
        inv.token = dto.token ∧ inv.accepted = false ∧
        (∃ inv' ∈ db'.invitations, inv'.id = inv.id ∧ inv'.accepted = true) ∧
        (∃ m ∈ db'.tenantUsers, m.tenantId = inv.tenantId ∧ m.role = inv.role)) := by
  refine ⟨step_invitations_monotone env db, ?_, ?_, ?_⟩
  · intro dto txOk inv hfind haccT
    unfold AuthService.acceptInvitation
    simp only [hfind, haccT, if_true]
  · intro dto
    unfold AuthService.acceptInvitation AuthService.acceptTxAndTokens
    constructor <;>
      (cases hf : db.invitations.find? (fun i => i.token == dto.token) with
        | none => rfl
        | some inv0 =>
          by_cases ha0 : inv0.accepted = true
          · simp [ha0]
          · by_cases he0 : inv0.isExpired env.now = true
            · simp [ha0, he0]
            · cases hu : UserRepository.findByEmailWithPassword db inv0.email with
              | some user => simp [ha0, he0, hu]
              | none =>
                cases hpw : dto.password with
                | none => simp [ha0, he0, hu, hpw]
                | some pw => simp [ha0, he0, hu, hpw])
  · intro dto db' res h
    unfold AuthService.acceptInvitation AuthService.acceptTxAndTokens at h
    cases hf : db.invitations.find? (fun i => i.token == dto.token) with
    | none => rw [hf] at h; simp at h
    | some inv0 =>
      rw [hf] at h
      have hmem0 := List.mem_of_find?_eq_some hf
      have htok0 : inv0.token = dto.token := by
        simpa using List.find?_some hf
      by_cases ha0 : inv0.accepted = true
      · simp only [ha0, if_true] at h; simp at h
      · simp only [ha0, if_false] at h
        by_cases he0 : inv0.isExpired env.now = true
        · simp only [he0, if_true] at h; simp at h
        · simp only [he0, if_false] at h
          have hacc0 : inv0.accepted = false := by
            cases hb : inv0.accepted with
            | false => rfl
            | true => exact absurd hb ha0
          refine ⟨inv0, hmem0, htok0, hacc0, ?_⟩
          have main : ∀ (dbx : Db) (userx : UserRow),
              dbx.invitations = db.invitations →
              (AuthService.generateTokens env
                  (AuthService.acceptTx env dbx userx inv0) userx.id
                  inv0.tenantId).1 = db' →
              (∃ inv' ∈ db'.invitations, inv'.id = inv0.id ∧
                  inv'.accepted = true) ∧
              (∃ m ∈ db'.tenantUsers, m.tenantId = inv0.tenantId ∧
                  m.role = inv0.role) := by
            intro dbx userx hinv hdb
            subst hdb
            constructor
            · refine ⟨{ inv0 with accepted := true }, ?_, rfl, rfl⟩
              show _ ∈ (AuthService.acceptTx env dbx userx inv0).invitations
              unfold AuthService.acceptTx
              have : inv0 ∈ dbx.invitations := hinv ▸ hmem0
              have hx := List.mem_map_of_mem
                (fun i => if i.id == inv0.id then { i with accepted := true }
                  else i) this
              simpa using hx
            · show ∃ m ∈ (AuthService.acceptTx env dbx userx inv0).tenantUsers, _
              unfold AuthService.acceptTx
              by_cases hany : dbx.tenantUsers.any
                  (fun m => m.userId == userx.id && m.tenantId == inv0.tenantId)
                  = true
              · simp only [hany, if_true]
                obtain ⟨m0, hm0, hp0⟩ := List.any_eq_true.mp hany
                have hpt : m0.tenantId = inv0.tenantId := by
                  have := (Bool.and_eq_true _ _).mp hp0
                  simpa using this.2
                refine ⟨{ m0 with role := inv0.role }, ?_, by simpa using hpt, rfl⟩
                have hx := List.mem_map_of_mem
                  (fun m => if m.userId == userx.id && m.tenantId == inv0.tenantId
                    then { m with role := inv0.role } else m) hm0
                simpa [hp0] using hx
              · simp only [hany, if_false]
                exact ⟨⟨userx.id, inv0.tenantId, inv0.role, env.now⟩,
                  by simp, rfl, rfl⟩
          cases hu : UserRepository.findByEmailWithPassword db inv0.email with
          | some user =>
            rw [hu] at h
            simp only [if_true] at h
            obtain ⟨hdb, hres⟩ := Prod.mk.injEq .. ▸ h
            exact main db user rfl hdb
          | none =>
            rw [hu] at h
            cases hpw : dto.password with
            | none => rw [hpw] at h; simp at h
            | some pw =>
              rw [hpw] at h
              simp only [if_true] at h
              obtain ⟨hdb, hres⟩ := Prod.mk.injEq .. ▸ h
              exact main { db with users := db.users ++
                  [⟨env.newUserId, inv0.email, env.bcryptHash pw, none, none⟩] }
                ⟨env.newUserId, inv0.email, env.bcryptHash pw, none, none⟩ rfl hdb

/-- Witness for C4: accepting an already-accepted invitation fails with
`InvitationAlreadyAccepted` and leaves the state unchanged. -/
theorem invitation_single_use_witness :
    AuthService.acceptInvitation envW
        { dbW with invitations := [⟨"i1", "c@x.com", "inv-tok-1",
            TenantRole.MEMBER, 50, true, "tA"⟩] }
        ⟨"inv-tok-1", none⟩ true
      = ({ dbW with invitations := [⟨"i1", "c@x.com", "inv-tok-1",
            TenantRole.MEMBER, 50, true, "tA"⟩] },
         .error .invitationAlreadyAccepted) :=
  (invitation_single_use envW
      { dbW with invitations := [⟨"i1", "c@x.com", "inv-tok-1",
          TenantRole.MEMBER, 50, true, "tA"⟩] }).2.1
    ⟨"inv-tok-1", none⟩ true
    ⟨"i1", "c@x.com", "inv-tok-1", TenantRole.MEMBER, 50, true, "tA"⟩ rfl rfl

/-- Helper: each operation either leaves the refresh-token store unchanged,
appends exactly one record created through `RefreshTokenRepository.create`
(hence holding a hash), or flips `revoked` flags in place via
`RefreshTokenRepository.revoke`. -/
theorem step_refreshTokens_shape (env : Env) (db : Db) (op : Op) :
    (step env db op).refreshTokens = db.refreshTokens ∨
    (∃ uid raw exp, (step env db op).refreshTokens
        = db.refreshTokens ++ [⟨uid, env.hash raw, exp, false⟩]) ∨
    (∃ t : TokenStr, (step env db op).refreshTokens
        = db.refreshTokens.map (fun r =>
            if r.token == env.hash t then { r with revoked := true } else r)) := by
  cases op with
  | register dto =>
    simp only [step]
    unfold AuthService.register
    cases hfe : UserRepository.findByEmail db dto.email with
    | some u0 => exact Or.inl rfl
    | none =>
      cases htx : AuthService.registerTx env db dto with
      | error e0 => exact Or.inl rfl
      | ok trip =>
        obtain ⟨db2, user, tid⟩ := trip
        refine Or.inr (Or.inl ⟨user.id,
          .jwt (jwtSign ⟨user.id, tid⟩ env.jwtRefreshSecret env.now
            (env.jwtRefreshExpiresInMs.getD (30 * dayMs))),
          env.now + 30 * dayMs, ?_⟩)
        show (AuthService.generateTokens env db2 user.id tid).1.refreshTokens = _
        rw [show (AuthService.generateTokens env db2 user.id tid).1.refreshTokens
          = db2.refreshTokens ++
            [⟨user.id, env.hash (.jwt (jwtSign ⟨user.id, tid⟩ env.jwtRefreshSecret
              env.now (env.jwtRefreshExpiresInMs.getD (30 * dayMs)))),
              env.now + 30 * dayMs, false⟩] from rfl,
          (registerTx_stores_frame env db dto db2 user tid htx).2]
  | login dto =>
    simp only [step]
    unfold AuthService.login
    cases hfe : UserRepository.findByEmailWithPassword db dto.email with
    | none => exact Or.inl rfl
    | some user =>
      by_cases hc : env.bcryptCompare dto.password user.password = true
      · simp only [hc, if_true]
        cases hl : db.tenantUsers.filter (fun m => m.userId == user.id) with
        | nil => exact Or.inl rfl
        | cons tu rest =>
          exact Or.inr (Or.inl ⟨user.id,
            .jwt (jwtSign ⟨user.id, tu.tenantId⟩ env.jwtRefreshSecret env.now
              (env.jwtRefreshExpiresInMs.getD (30 * dayMs))),
            env.now + 30 * dayMs, rfl⟩)
      · simp only [hc, if_false]
        exact Or.inl rfl
  | refresh t =>
    simp only [step]
    unfold AuthService.refreshToken
    cases hver : jwtVerify t env.jwtRefreshSecret env.now with
    | none => exact Or.inl rfl
    | some payload =>
      cases hf : RefreshTokenRepository.findByToken env db t with
      | none => exact Or.inl rfl
      | some stored =>
        cases hv : stored.isValid env.now with
        | false => simp only [hv]; exact Or.inl rfl
        | true =>
          simp only [hv]
          cases hu : UserRepository.findById db payload.sub with
          | none => exact Or.inl rfl
          | some user =>
            exact Or.inr (Or.inl ⟨user.id,
              .jwt (jwtSign ⟨user.id, payload.tenantId⟩ env.jwtRefreshSecret
                env.now (env.jwtRefreshExpiresInMs.getD (30 * dayMs))),
              env.now + 30 * dayMs, rfl⟩)
  | logout t infraOk =>
    simp only [step]
    unfold AuthService.logout RefreshTokenRepository.revoke
    cases infraOk with
    | false => exact Or.inl rfl
    | true =>
      by_cases hany : db.refreshTokens.any (fun r => r.token == env.hash t) = true
      · simp only [hany, if_true]
        exact Or.inr (Or.inr ⟨t, rfl⟩)
      · simp only [hany, if_false]
        exact Or.inl rfl
  | accept dto txOk =>
    simp only [step]
    unfold AuthService.acceptInvitation AuthService.acceptTxAndTokens
    cases hf : db.invitations.find? (fun i => i.token == dto.token) with
    | none => exact Or.inl rfl
    | some inv0 =>
      by_cases ha0 : inv0.accepted = true
      · simp [ha0]
      · by_cases he0 : inv0.isExpired env.now = true
        · simp [ha0, he0]
        · simp only [ha0, he0, Bool.false_eq_true, if_false]
          cases hu : UserRepository.findByEmailWithPassword db inv0.email with
          | some user =>
            cases txOk with
            | false => exact Or.inl rfl
            | true =>
              exact Or.inr (Or.inl ⟨user.id,
                .jwt (jwtSign ⟨user.id, inv0.tenantId⟩ env.jwtRefreshSecret
                  env.now (env.jwtRefreshExpiresInMs.getD (30 * dayMs))),
                env.now + 30 * dayMs, rfl⟩)
          | none =>
            cases hpw : dto.password with
            | none => exact Or.inl rfl
            | some pw =>
              cases txOk with
              | false => exact Or.inl rfl
              | true =>
                exact Or.inr (Or.inl ⟨env.newUserId,
                  .jwt (jwtSign ⟨env.newUserId, inv0.tenantId⟩
                    env.jwtRefreshSecret env.now
                    (env.jwtRefreshExpiresInMs.getD (30 * dayMs))),
                  env.now + 30 * dayMs, rfl⟩)

/-- Helper: the hashed-store invariant is preserved by every operation. -/
theorem hashedStore_step (env : Env) (db : Db) (op : Op)
    (h : HashedStore env db) : HashedStore env (step env db op) := by
  rcases step_refreshTokens_shape env db op with hs | ⟨uid, raw, exp, hs⟩ | ⟨t, hs⟩
  · intro rec hrec
    rw [hs] at hrec
    exact h rec hrec
  · intro rec hrec
    rw [hs] at hrec
    rcases List.mem_append.mp hrec with hx | hx
    · exact h rec hx
    · obtain rfl := List.mem_singleton.mp hx
      exact ⟨raw, rfl⟩
  · intro rec hrec
    rw [hs] at hrec
    obtain ⟨r0, hr0, hfr⟩ := List.mem_map.mp hrec
    obtain ⟨raw0, hraw0⟩ := h r0 hr0
    refine ⟨raw0, ?_⟩
    by_cases hb : (r0.token == env.hash t) = true
    · simp only [hb, if_true] at hfr
      rw [← hfr]
      exact hraw0
    · simp only [hb, if_false] at hfr
      rw [← hfr]
      exact hraw0

/-- C7: starting from any hashed store, after any sequence of operations every
record of the Refresh Token Store still holds only the SHA-256 image of some
raw token — and since no hash output is the serialization of a JWT, no stored
value is the raw value of an issued (JWT-shaped) token; moreover `findByToken`
and `revoke` key their lookup on the hash of the presented token. -/
theorem refresh_store_holds_only_hashes (env : Env) (ops : List Op) (db : Db)
    (hdb : HashedStore env db)
    (hne : ∀ (u : TokenStr) (j : Jwt), env.hash u ≠ TokenStr.asString (.jwt j)) :
    HashedStore env (runOps env ops db) ∧
    (∀ rec ∈ (runOps env ops db).refreshTokens, ∀ j : Jwt,
        rec.token ≠ TokenStr.asString (.jwt j)) ∧
    (∀ (dbx : Db) (t : TokenStr), RefreshTokenRepository.findByToken env dbx t
        = dbx.refreshTokens.find? (fun r => r.token == env.hash t)) ∧
    (∀ (dbx dbx' : Db) (t : TokenStr),
        RefreshTokenRepository.revoke env dbx t = .ok dbx' →
        dbx'.refreshTokens = dbx.refreshTokens.map (fun r =>
          if r.token == env.hash t then { r with revoked := true } else r)) := by
  have hrun : HashedStore env (runOps env ops db) := by
    induction ops generalizing db with
    | nil => exact hdb
    | cons op rest ih => exact ih (step env db op) (hashedStore_step env db op hdb)
  refine ⟨hrun, ?_, fun dbx t => rfl, ?_⟩
  · intro rec hrec jx
    obtain ⟨raw, hraw⟩ := hrun rec hrec
    rw [hraw]
    exact hne raw jx
  · intro dbx dbx' t h
    unfold RefreshTokenRepository.revoke at h
    by_cases hany : dbx.refreshTokens.any (fun r => r.token == env.hash t) = true
    · simp only [hany, if_true] at h
      rw [← Except.ok.inj h]
    · simp only [hany, if_false] at h
      cases h

/-- Witness for C7: in the concrete environment the hash function's outputs
are never JWT serializations; running a refresh against `dbW` keeps the store
all-hashed, and the pre-existing stored value is not any issued token's raw
string. -/
theorem refresh_store_holds_only_hashes_witness :
    HashedStore envW (runOps envW [Op.refresh (.jwt jW)] dbW) ∧
    (∀ j : Jwt, (⟨"u1", "h", 100, false⟩ : RefreshTokenRow).token
        ≠ TokenStr.asString (.jwt j)) := by
  have hne : ∀ (u : TokenStr) (j : Jwt),
      envW.hash u ≠ TokenStr.asString (.jwt j) := by
    intro u j hcontra
    have hlen := congrArg String.length hcontra
    simp only [TokenStr.asString, String.length_append] at hlen
    have h1 : ("h" : String).length = 1 := rfl
    have h2 : ("." : String).length = 1 := rfl
    rw [show envW.hash u = "h" from rfl] at hlen
    rw [h1, h2] at hlen
    omega
  have hdbW : HashedStore envW dbW := by
    intro rec hrec
    exact ⟨.garbage "", by
      obtain rfl := List.mem_singleton.mp hrec
      rfl⟩
  have h := refresh_store_holds_only_hashes envW [Op.refresh (.jwt jW)] dbW
    hdbW hne
  refine ⟨h.1, ?_⟩
  intro j
  exact h.2.1 ⟨"u1", "h", 100, false⟩ (by decide) j
